import Mathlib

/-!
# LocalTube job-orchestration core: a shallow embedding

This file embeds, in Lean 4, the parts of the LocalTube source that the
specification's claims are about, and proves (or refutes) each claim:

* `src/ytdlp.rs` — extractor concurrency configuration and the streaming
  list producer (`ytdtp_concurrency`, `stream_media_list`,
  `stream_should_fail`);
* `src/job_tracking/{task,metrics,manager}.rs` — the task registry, its
  permit accounting and the Gluetun (VPN) restart bookkeeping
  (`finish_gluetun_restart`, `remove_task`, `cleanup_old_tasks`);
* `src/gluetun/supervisor.rs` — the restart trigger selection
  (`select_restart_trigger`, `should_trigger_restart`,
  `restart_gate_allows`);
* `src/controllers/media.rs` — byte-range parsing and the streaming
  response (`parse_range_header`, `is_multi_range_header`, `stream`);
* `src/workers/fetch_media.rs` — the download worker's short-circuit
  precondition chain;
* `src/workers/fetch_source_info.rs` — early-stop policy and the
  per-item reconciliation loop of the refresh worker;
* `src/tasks/refresh_indexes.rs` — the jittered refresh scheduler sweep.

Rust machine integers are modelled as `Nat`/`Int` (all the arithmetic the
claims touch is guarded in the source, so no wrap-around occurs); fallible
steps return `Option`/`Except`; a documented Rust panic is modelled as an
explicit `Except` error value.  JSON column values are modelled by their
parse result (`JVal`), since the code only ever observes
`serde_json::from_value(..).ok()` of them.
-/

namespace LocalTube

/-! ## Shared data model (src/job_tracking/task.rs) -/

/-- `TaskType` from src/job_tracking/task.rs. -/
inductive TaskType where
  | RefreshIndex
  | DownloadVideo
deriving DecidableEq, Repr

/-- `TaskState` from src/job_tracking/task.rs. -/
inductive TaskState where
  | Queued
  | InProgress
  | Completed
  | Failed (message : String)
deriving DecidableEq, Repr

/-! ## Decimal numerals

Rust renders numbers with `format!`/`to_string` and parses them with
`str::parse::<u64>`.  We embed both directions over `List Char`. -/

/-- The character for one decimal digit (`0..9`). -/
def decDigitChar (n : Nat) : Char := Char.ofNat (48 + n)

/-- Fuel-driven core of the decimal printer (`fuel > n` suffices). -/
def natDecCharsGo : Nat → Nat → List Char
  | 0, _ => []
  | fuel + 1, n =>
    if n < 10 then [decDigitChar n]
    else natDecCharsGo fuel (n / 10) ++ [decDigitChar (n % 10)]

/-- Decimal numeral of a natural number, most significant digit first;
mirrors Rust's `Display` for unsigned integers. -/
def natDecChars (n : Nat) : List Char := natDecCharsGo (n + 1) n

/-- One digit of Rust's `char::to_digit(10)`. -/
def parseDigit (c : Char) : Option Nat :=
  if 48 ≤ c.toNat ∧ c.toNat ≤ 57 then some (c.toNat - 48) else none

/-- Accumulating digit parse; `none` on the first non-digit. -/
def digitsToNat : List Char → Nat → Option Nat
  | [], acc => some acc
  | c :: cs, acc =>
    match parseDigit c with
    | none => none
    | some d => digitsToNat cs (acc * 10 + d)

/-- The digit part of Rust's unsigned `from_str`: at least one decimal
digit, and the value must fit in 64 bits (otherwise `Err(PosOverflow)`). -/
def parseU64Digits (ds : List Char) : Option Nat :=
  match ds with
  | [] => none
  | _ =>
    match digitsToNat ds 0 with
    | none => none
    | some v => if v < 2 ^ 64 then some v else none

/-- Rust `u64::from_str` (also `usize` on 64-bit targets): an optional
leading `+` sign, then the digit part. -/
def parseU64 (cs : List Char) : Option Nat :=
  match cs with
  | [] => none
  | c :: rest => if c = '+' then parseU64Digits rest else parseU64Digits (c :: rest)

/-! ## Extractor concurrency (src/ytdlp.rs, `ytdtp_concurrency`) -/

/-- `ytdtp_concurrency` from src/ytdlp.rs: read
`LOCALTUBE_YTDLP_CONCURRENCY`, parse as `usize` (falling back to 4 when
unset or unparseable), then clamp to `1..=8`.  The environment variable is
passed in as `Option (List Char)`. -/
def ytdtp_concurrency (env : Option (List Char)) : Nat :=
  let concurrency :=
    match env with
    | none => 4
    | some v =>
      match parseU64 v with
      | none => 4
      | some n => n
  max 1 (min concurrency 8)

/-! ## Streaming list producer (src/ytdlp.rs, `stream_media_list`) -/

/-- `stream_should_fail` from src/ytdlp.rs. -/
def stream_should_fail (exit_success : Bool) (items_emitted : Nat) : Bool :=
  !exit_success || items_emitted == 0

/-- The stdout loop of `stream_media_list`: each non-empty stdout line is
parsed (`serde_json::from_str`, abstracted by the `parse` oracle);
unparseable lines are skipped with a warning; each parsed record is sent
on the channel and counted in `items_emitted`.  Returns the records sent,
in order, together with the final `items_emitted` count.  (The stderr
branch of the `select!` loop only logs and is invisible on the channel.) -/
def streamLoop {R : Type} (parse : String → Option R) :
    List String → Nat → List R × Nat
  | [], n => ([], n)
  | l :: ls, n =>
    if l = "" then streamLoop parse ls n
    else
      match parse l with
      | none => streamLoop parse ls n
      | some r =>
        let rest := streamLoop parse ls (n + 1)
        (r :: rest.1, rest.2)

/-- Everything the consumer of `stream_media_list` receives before the
channel closes: the parsed records, then — iff `stream_should_fail`
applied to the exit status and the emitted count holds — exactly one
terminal `Err`. -/
def stream_media_list_received {R : Type} (parse : String → Option R)
    (lines : List String) (exit_success : Bool) : List (Except Unit R) :=
  let run := streamLoop parse lines 0
  run.1.map Except.ok ++
    (if stream_should_fail exit_success run.2 then [Except.error ()] else [])

/-! ## Task metrics and the supervisor snapshot (src/job_tracking/metrics.rs) -/

/-- `MAX_CONSECUTIVE_FAILURES_BEFORE_RESTART` from src/job_tracking/metrics.rs. -/
def MAX_CONSECUTIVE_FAILURES_BEFORE_RESTART : Nat := 3

/-- `MIN_SUCCESS_AGE_BEFORE_RESTART` from src/job_tracking/metrics.rs,
in seconds (`Duration::from_secs(30 * 60)`). -/
def MIN_SUCCESS_AGE_BEFORE_RESTART_SECS : Nat := 30 * 60

/-- `TaskMetrics` from src/job_tracking/metrics.rs: the per-kind snapshot
the supervisor consumes. -/
structure TaskMetrics where
  success_count : Nat
  failure_count : Nat
  consecutive_failures : Nat
  last_success_seconds_ago : Option Nat
  last_failure_seconds_ago : Option Nat
  restart_count : Nat
  last_restart_seconds_ago : Option Nat
  last_restart_outcome : Option String
  last_restart_error : Option String
  restart_in_progress : Bool
deriving DecidableEq, Repr

/-- `AllMetrics` from src/job_tracking/metrics.rs; the `tasks` hash map is
keyed by the two task kinds, `HashMap::get` returning `Option`. -/
structure AllMetrics where
  tasks_download : Option TaskMetrics
  tasks_refresh : Option TaskMetrics
  gluetun_enabled : Bool
deriving DecidableEq, Repr

/-- `metrics.tasks.get(&kind)` on an `AllMetrics` snapshot. -/
def AllMetrics.tasksGet (m : AllMetrics) : TaskType → Option TaskMetrics
  | .DownloadVideo => m.tasks_download
  | .RefreshIndex => m.tasks_refresh

/-! ## VPN supervisor trigger selection (src/gluetun/supervisor.rs) -/

/-- `restart_gate_allows` from src/gluetun/supervisor.rs. -/
def restart_gate_allows (metrics : TaskMetrics) : Bool :=
  let threshold_secs := MIN_SUCCESS_AGE_BEFORE_RESTART_SECS
  if threshold_secs = 0 then true
  else
    match metrics.last_success_seconds_ago, metrics.last_restart_seconds_ago with
    | none, none => true
    | some success, none => decide (threshold_secs ≤ success)
    | none, some restart => decide (threshold_secs ≤ restart)
    | some success, some restart => decide (threshold_secs ≤ min success restart)

/-- `should_trigger_restart` from src/gluetun/supervisor.rs. -/
def should_trigger_restart (metrics : TaskMetrics) : Bool :=
  if metrics.restart_in_progress then false
  else if metrics.consecutive_failures < MAX_CONSECUTIVE_FAILURES_BEFORE_RESTART then false
  else if !restart_gate_allows metrics then false
  else true

/-- `select_restart_trigger` from src/gluetun/supervisor.rs: DownloadVideo
is considered first, RefreshIndex second, and the first kind whose metrics
satisfy `should_trigger_restart` wins (the `?` operator on a missing map
entry aborts with `None`). -/
def select_restart_trigger (metrics : AllMetrics) : Option TaskType :=
  match metrics.tasksGet .DownloadVideo with
  | none => none
  | some download =>
    if should_trigger_restart download then some .DownloadVideo
    else
      match metrics.tasksGet .RefreshIndex with
      | none => none
      | some refresh =>
        if should_trigger_restart refresh then some .RefreshIndex
        else none

/-- The decision part of `handle_metrics` from src/gluetun/supervisor.rs:
skip when `gluetun_enabled` is false; otherwise the selected trigger is the
restart requested by this snapshot, provided the `begin_gluetun_restart`
compare-and-swap (outcome passed in as `begin_ok`) admits it. -/
def handle_metrics_request (all_metrics : AllMetrics) (begin_ok : Bool) :
    Option TaskType :=
  if !all_metrics.gluetun_enabled then none
  else
    match select_restart_trigger all_metrics with
    | none => none
    | some trigger_task => if begin_ok then some trigger_task else none

/-! ## Gluetun restart bookkeeping (src/job_tracking/manager.rs) -/

/-- `GluetunRestartOutcome` from src/gluetun/controller.rs. -/
structure GluetunRestartOutcome where
  stop_outcome : Option String
  start_outcome : Option String
deriving DecidableEq, Repr

/-- `RestartMetrics` from src/job_tracking/metrics.rs.  Instants are
modelled as integer timestamps; the stringification of outcomes and errors
(`to_string`) is abstracted by storing the rendered strings. -/
structure RestartMetrics where
  count : Nat
  last_started : Option Int
  last_completed : Option Int
  last_outcome : Option String
  last_error : Option String
  in_progress : Bool
deriving DecidableEq, Repr

/-- `TaskMetricData` from src/job_tracking/metrics.rs. -/
structure TaskMetricData where
  success : Nat
  failure : Nat
  consecutive_failures : Nat
  last_success : Option Int
  last_failure : Option Int
  restart : RestartMetrics
deriving DecidableEq, Repr

/-- The manager state that `finish_gluetun_restart` touches: the per-kind
metrics map (which always holds both kinds) and the
`gluetun_restart_in_progress` atomic flag. -/
structure ManagerMetrics where
  download : TaskMetricData
  refresh : TaskMetricData
  gluetun_restart_in_progress : Bool
deriving DecidableEq, Repr

/-- `metrics.get_mut(&kind)` on the manager's metrics map. -/
def ManagerMetrics.kindData (m : ManagerMetrics) : TaskType → TaskMetricData
  | .DownloadVideo => m.download
  | .RefreshIndex => m.refresh

/-- `finish_gluetun_restart` from src/job_tracking/manager.rs
(lines 366–393).  Note the Rust function takes no trigger kind: the body
does `metrics.get_mut(&TaskType::DownloadVideo)` unconditionally, so the
restart bookkeeping — including the `consecutive_failures = 0` reset on
`Ok` — is always applied to the DownloadVideo entry.  `now` stands for
`Instant::now()`; the rendered outcome/error strings are passed in. -/
def finish_gluetun_restart (now : Int)
    (outcome : Except String String) (m : ManagerMetrics) : ManagerMetrics :=
  let data := m.download
  let data :=
    { data with
        restart :=
          { data.restart with in_progress := false, last_completed := some now } }
  let data :=
    match outcome with
    | .ok result =>
      { data with
          restart :=
            { data.restart with
                count := data.restart.count + 1
                last_outcome := some result
                last_error := none }
          consecutive_failures := 0 }
    | .error err =>
      { data with restart := { data.restart with last_error := some err } }
  { m with download := data, gluetun_restart_in_progress := false }

/-! ## Media streamer (src/controllers/media.rs) -/

/-- Rust `char::is_whitespace`: the Unicode `White_Space` property. -/
def rustIsWhitespace (c : Char) : Bool :=
  (9 ≤ c.toNat ∧ c.toNat ≤ 13) || c.toNat = 32 || c.toNat = 0x85 ||
    c.toNat = 0xA0 || c.toNat = 0x1680 ||
    (0x2000 ≤ c.toNat ∧ c.toNat ≤ 0x200A) ||
    c.toNat = 0x2028 || c.toNat = 0x2029 || c.toNat = 0x202F ||
    c.toNat = 0x205F || c.toNat = 0x3000

/-- Rust `str::trim`: drop whitespace from both ends. -/
def rustTrim (cs : List Char) : List Char :=
  ((cs.dropWhile rustIsWhitespace).reverse.dropWhile rustIsWhitespace).reverse

/-- Rust `str::trim_start_matches("bytes=")`: repeatedly remove the
leading occurrence of the pattern while it matches. -/
def stripAllBytesEq : List Char → List Char
  | 'b' :: 'y' :: 't' :: 'e' :: 's' :: '=' :: rest => stripAllBytesEq rest
  | cs => cs

/-- Rust `str::splitn(2, '-')` packaged as (part before the first dash,
the rest after it when a dash exists). -/
def splitFirstDash : List Char → List Char × Option (List Char)
  | [] => ([], none)
  | c :: cs =>
    if c = '-' then ([], some cs)
    else
      let rest := splitFirstDash cs
      (c :: rest.1, rest.2)

/-- `is_multi_range_header` from src/controllers/media.rs. -/
def is_multi_range_header (range : List Char) : Bool :=
  let value := rustTrim range
  ("bytes=".toList).isPrefixOf value &&
    (stripAllBytesEq value).contains ','

/-- `parse_range_header` from src/controllers/media.rs (lines 80–124). -/
def parse_range_header (range : List Char) (file_size : Nat) :
    Option (Nat × Nat) :=
  if file_size = 0 then none
  else
    let value := rustTrim range
    if !("bytes=".toList).isPrefixOf value then none
    else
      let range_value := stripAllBytesEq value
      let seg := rustTrim (range_value.takeWhile (fun c => c ≠ ','))
      let parts := splitFirstDash seg
      let start_part := parts.1
      let end_part := parts.2.getD []
      if start_part = [] then
        match parseU64 end_part with
        | none => none
        | some suffix_len =>
          if suffix_len = 0 then none
          else if file_size ≤ suffix_len then some (0, file_size - 1)
          else some (file_size - suffix_len, file_size - 1)
      else
        match parseU64 start_part with
        | none => none
        | some start =>
          if file_size ≤ start then none
          else if end_part = [] then some (start, file_size - 1)
          else
            match parseU64 end_part with
            | none => none
            | some en =>
              if en < start then none
              else some (start, min en (file_size - 1))

/-- The observable part of an HTTP response built by `stream` /
`range_not_satisfiable_response` in src/controllers/media.rs: status code,
body bytes, and the `Content-Range` / `Content-Length` / `Accept-Ranges`
headers. -/
structure StreamResponse where
  status : Nat
  body : List Nat
  content_range : Option (List Char)
  content_length : Option Nat
  accept_ranges : Bool
deriving DecidableEq, Repr

/-- `range_not_satisfiable_response` from src/controllers/media.rs:
status 416, empty body, `Accept-Ranges: bytes` and
`Content-Range: bytes */{file_size}`; no `Content-Length` is set. -/
def range_not_satisfiable_response (file_size : Nat) : StreamResponse :=
  { status := 416
    body := []
    content_range := some ("bytes */".toList ++ natDecChars file_size)
    content_length := none
    accept_ranges := true }

/-- The happy-path tail of `stream` from src/controllers/media.rs
(lines 195–255), for a stored file that exists: given the request's
`Range` header (if any) and the file's bytes, produce the response.  The
body follows `stream_body`: after seeking to `start`, at most `remaining`
bytes are read (reads stop at end of file). -/
def media_stream_response (range_header : Option (List Char))
    (file : List Nat) : StreamResponse :=
  let file_size := file.length
  let is_bytes_range :=
    match range_header with
    | some v => ("bytes=".toList).isPrefixOf (rustTrim v)
    | none => false
  let is_multi_range :=
    match range_header with
    | some v => is_bytes_range && is_multi_range_header v
    | none => false
  let range :=
    if is_multi_range || !is_bytes_range then none
    else
      match range_header with
      | some v => parse_range_header v file_size
      | none => none
  if is_bytes_range && range.isNone && !is_multi_range then
    range_not_satisfiable_response file_size
  else
    let ses :=
      match range with
      | some (s, e) => (s, e, 206)
      | none => if file_size = 0 then (0, 0, 200) else (0, file_size - 1, 200)
    let start := ses.1
    let en := ses.2.1
    let status := ses.2.2
    let remaining := if file_size = 0 then 0 else en - start + 1
    { status := status
      body := (file.drop start).take remaining
      content_range :=
        if status = 206 then
          some ("bytes ".toList ++ natDecChars start ++ ['-'] ++
            natDecChars en ++ ['/'] ++ natDecChars file_size)
        else none
      content_length := some remaining
      accept_ranges := true }

/-- The `Range: bytes=a-b` header for concrete bounds. -/
def mkRangeHeaderAB (a b : Nat) : List Char :=
  "bytes=".toList ++ natDecChars a ++ ['-'] ++ natDecChars b

/-- The `Range: bytes=a-` header for a concrete start bound. -/
def mkRangeHeaderFrom (a : Nat) : List Char :=
  "bytes=".toList ++ natDecChars a ++ ['-']

/-! ## JSON columns and the model layer (src/models/{medias,sources}.rs) -/

/-- A stored JSON column value, abstracted by its serde parse result: the
code only ever observes `serde_json::from_value::<T>(v).ok()`. -/
inductive JVal (α : Type) where
  | parsesTo (a : α)
  | unparseable
deriving DecidableEq, Repr

/-- `serde_json::from_value(v).ok()` on the abstracted value. -/
def parseJ {α : Type} : JVal α → Option α
  | .parsesTo a => some a
  | .unparseable => none

/-- A Rust panic surfaced by the embedding. -/
inductive PanicE where
  | panic
deriving DecidableEq, Repr

/-- `MediaMetadata` from src/models/medias.rs. -/
structure MediaMetadata where
  title : String
  description : Option String
  duration : Nat
  extractor_key : String
  original_url : List Char
  timestamp : Int
deriving DecidableEq, Repr

/-- `SourceMetadata` from src/models/sources.rs. -/
structure SourceMetadata where
  uploader : String
  items : Nat
  source_provider : String
deriving DecidableEq, Repr

/-- The `medias` table row (src/models/_entities/medias.rs). -/
structure MediaModel where
  id : Nat
  url : List Char
  source_id : Nat
  metadata : Option (JVal MediaMetadata)
  media_path : Option (List Char)
deriving DecidableEq, Repr

/-- The `sources` table row (src/models/_entities/sources.rs, plus the
`last_scheduled_refresh` column added by migration
m20250826_090400_add_last_scheduled_refresh_to_sources).  Timestamps are
Unix seconds. -/
structure SourceModel where
  id : Nat
  url : List Char
  fetch_last_days : Int
  last_refreshed_at : Option Int
  refresh_frequency : Int
  sponsorblock : String
  metadata : Option (JVal SourceMetadata)
  last_scheduled_refresh : Option Int
deriving DecidableEq, Repr

/-- `Model::get_metadata` from src/models/medias.rs:
`serde_json::from_value(self.metadata.clone().unwrap()).ok()` — the
`unwrap` panics when the `metadata` column is `None` (the function's own
doc comment documents this panic). -/
def medias_get_metadata (metadata : Option (JVal MediaMetadata)) :
    Except PanicE (Option MediaMetadata) :=
  match metadata with
  | none => .error .panic
  | some v => .ok (parseJ v)

/-- `Model::get_metadata` from src/models/sources.rs: same shape, same
documented panic on a `None` column. -/
def sources_get_metadata (metadata : Option (JVal SourceMetadata)) :
    Except PanicE (Option SourceMetadata) :=
  match metadata with
  | none => .error .panic
  | some v => .ok (parseJ v)

/-! ## Download worker (src/workers/fetch_media.rs) -/

/-- The observable effects of one `FetchMediaWorker::perform` run. -/
structure FetchMediaRun where
  ok : Bool
  task_registered : Bool
  download_invoked : Bool
  media_path_update : Option (List Char)
  task_completed : Bool
  task_failed : Option String
  retry_scheduled : Bool
deriving DecidableEq, Repr

/-- A `perform` run that short-circuits with success before registering a
task. -/
def fetchMediaNoop : FetchMediaRun :=
  { ok := true
    task_registered := false
    download_invoked := false
    media_path_update := none
    task_completed := false
    task_failed := none
    retry_scheduled := false }

/-- `FetchMediaWorker::perform` from src/workers/fetch_media.rs: the
precondition chain (media row found → no `media_path` yet → media
metadata → related source → source metadata), then task registration,
permit acquisition and the extractor download (its outcome passed in as
`download_result`).  A `get_metadata` panic propagates. -/
def fetch_media_perform (media? : Option MediaModel)
    (source? : Option SourceModel)
    (download_result : Except String (List Char)) :
    Except PanicE FetchMediaRun :=
  match media? with
  | none => .ok fetchMediaNoop
  | some media =>
    if media.media_path.isSome then .ok fetchMediaNoop
    else
      match medias_get_metadata media.metadata with
      | .error p => .error p
      | .ok none => .ok fetchMediaNoop
      | .ok (some _metadata) =>
        match source? with
        | none => .ok fetchMediaNoop
        | some source =>
          match sources_get_metadata source.metadata with
          | .error p => .error p
          | .ok none => .ok fetchMediaNoop
          | .ok (some _source_metadata) =>
            match download_result with
            | .ok file_path =>
              .ok { ok := true
                    task_registered := true
                    download_invoked := true
                    media_path_update := some file_path
                    task_completed := true
                    task_failed := none
                    retry_scheduled := false }
            | .error e =>
              .ok { ok := false
                    task_registered := true
                    download_invoked := true
                    media_path_update := none
                    task_completed := false
                    task_failed := some ("Download failed: " ++ e)
                    retry_scheduled := true }

/-! ## Refresh scheduler sweep (src/tasks/refresh_indexes.rs) -/

/-- The per-source decision of `RefreshIndexes::run`: jitter,
`is_time_passed`, and whether `schedule_refresh` is invoked.  Evaluating
the condition calls `source.get_metadata()`, whose panic on a `None`
metadata column propagates.  `%` is Rust's truncated remainder
(`Int.tmod`). -/
def refresh_index_decide (now : Int) (force : Bool) (source : SourceModel) :
    Except PanicE Bool :=
  let jitter : Int :=
    match source.last_refreshed_at with
    | none => 0
    | some last_refresh => Int.tmod last_refresh 1800 - 900
  let is_time_passed : Option Int → Bool := fun timestamp =>
    match timestamp with
    | none => true
    | some d => decide (source.refresh_frequency * 3600 + jitter < now - d)
  let need_refresh := is_time_passed source.last_refreshed_at
  let need_schedule := is_time_passed source.last_scheduled_refresh
  match sources_get_metadata source.metadata with
  | .error p => .error p
  | .ok meta? => .ok ((meta?.isNone || need_refresh) && need_schedule || force)

/-- `FetchSourceInfoWorker::schedule_refresh` from
src/workers/fetch_source_info.rs: stamp `last_scheduled_refresh = now` on
the source, then enqueue the refresh job for its id (returned second). -/
def schedule_refresh (now : Int) (source : SourceModel) : SourceModel × Nat :=
  ({ source with last_scheduled_refresh := some now }, source.id)

/-- One source's slice of the `RefreshIndexes::run` sweep: the updated
source row and the enqueued refresh job, if any. -/
def refresh_index_step (now : Int) (force : Bool) (source : SourceModel) :
    Except PanicE (SourceModel × Option Nat) :=
  match refresh_index_decide now force source with
  | .error p => .error p
  | .ok false => .ok (source, none)
  | .ok true =>
    let r := schedule_refresh now source
    .ok (r.1, some r.2)

/-! ## Refresh worker item loop (src/workers/fetch_source_info.rs) -/

/-- `SMALL_LIST_THRESHOLD` from src/workers/fetch_source_info.rs. -/
def SMALL_LIST_THRESHOLD : Nat := 25

/-- `SourceListKind` as used by src/workers/fetch_source_info.rs. -/
inductive SourceListKind where
  | Video
  | List
deriving DecidableEq, Repr

/-- `should_stop_early` from src/workers/fetch_source_info.rs
(lines 43–51). -/
def should_stop_early (list_kind : Option SourceListKind)
    (list_count : Option Nat) : Bool :=
  match list_kind with
  | some .List =>
    !(match list_count with
      | some count => decide (count ≤ SMALL_LIST_THRESHOLD)
      | none => false)
  | _ => true

/-- Substring test, modelling sea-orm's `Column::contains` (SQL
`LIKE '%needle%'`). -/
def listContainsSub (needle : List Char) : List Char → Bool
  | [] => needle.isEmpty
  | c :: rest => needle.isPrefixOf (c :: rest) || listContainsSub needle rest

/-- State threaded through the refresh worker's item loop: the `medias`
table restricted to this source's rows, the next id the database will
assign, the `saw_newer_item` flag and the DownloadVideo jobs enqueued so
far (in order). -/
structure RefreshLoopState where
  db : List MediaModel
  next_id : Nat
  saw_newer : Bool
  enqueued : List Nat
deriving Repr

/-- The per-item body of the refresh worker's `while let` loop
(src/workers/fetch_source_info.rs lines 356–437), after the early-stop
check: look up an existing media by source id and URL containment; update
it (clearing `media_path` when the stored file vanished) or insert a new
row; enqueue a DownloadVideo job when marked. -/
def refresh_item_step (file_exists : List Char → Bool) (source_id : Nat)
    (item : MediaMetadata) (st : RefreshLoopState) : RefreshLoopState :=
  match st.db.find? (fun row =>
      row.source_id == source_id && listContainsSub item.original_url row.url) with
  | some media =>
    let download0 : Option Nat :=
      if media.media_path.isNone then some media.id else none
    let file_gone :=
      match media.media_path with
      | some p => !file_exists p
      | none => false
    let download_media_id := if file_gone then some media.id else download0
    let updated :=
      { media with
          metadata := some (JVal.parsesTo item)
          media_path := if file_gone then none else media.media_path }
    { st with
        db := st.db.map (fun row => if row.id == media.id then updated else row)
        enqueued := st.enqueued ++ download_media_id.toList }
  | none =>
    let inserted : MediaModel :=
      { id := st.next_id
        url := item.original_url
        source_id := source_id
        metadata := some (JVal.parsesTo item)
        media_path := none }
    { st with
        db := st.db ++ [inserted]
        next_id := st.next_id + 1
        enqueued := st.enqueued ++ [st.next_id] }

/-- The refresh worker's item loop (src/workers/fetch_source_info.rs
lines 342–437): update `saw_newer_item`, break when early-stop applies,
otherwise reconcile the item and continue. -/
def refresh_stream_loop (file_exists : List Char → Bool)
    (should_stop order_known : Bool) (fetch_before : Int) (source_id : Nat) :
    List MediaMetadata → RefreshLoopState → RefreshLoopState
  | [], st => st
  | item :: rest, st =>
    let st := { st with
      saw_newer := st.saw_newer || decide (fetch_before ≤ item.timestamp) }
    if should_stop && decide (item.timestamp < fetch_before) &&
        (order_known || st.saw_newer) then
      st
    else
      refresh_stream_loop file_exists should_stop order_known fetch_before
        source_id rest (refresh_item_step file_exists source_id item st)

/-! ## Task registry as a transition system
(src/job_tracking/{task,manager}.rs)

The claims about permit accounting quantify over interleavings of the
registry operations, each of which is a short critical section in the
source; we model each operation as one atomic transition. -/

/-- The lifecycle of the RAII handle attached to one task: created queued
by `add_task`, turned active by `QueuedTask::start` (which acquires the
owned semaphore permit), and dead once consumed (`complete`,
`mark_failed`) or dropped. -/
inductive HandleState where
  | hQueued
  | hActive
  | hDead
deriving DecidableEq, Repr

/-- One entry of the registry's task map: its `TaskState`, whether
`completed_at` has been stamped (`remove_task` stamps it on finalize), and
the state of its handle. -/
structure TaskRec where
  state : TaskState
  finalized : Bool
  handle : HandleState
deriving DecidableEq, Repr

/-- The registry state the permit-accounting claims talk about: the task
map (as a list) and the number of semaphore permits currently checked
out. -/
structure RegState where
  tasks : List TaskRec
  permits : Nat
deriving DecidableEq, Repr

/-- One atomic registry operation, for a concurrency gate of capacity
`cap`:

* `add` — `TaskManager::add_task`: insert a Queued task with a live queued
  handle;
* `start` — `QueuedTask::start`: await a permit (only possible while
  fewer than `cap` are out), mark the task InProgress, handle becomes
  active and owns the permit;
* `complete` — `ActiveTask::complete`: state Completed, `completed_at`
  stamped, `remove_task` metrics finalize, permit released with the
  handle;
* `markFailed` — `ActiveTask::mark_failed`: state Failed(msg),
  `completed_at` stamped, then the handle drop runs `remove_task` and
  releases the permit;
* `dropQueued` — a queued handle dropped without starting: `remove_task`
  stamps `completed_at`, the state stays Queued, no permit involved;
* `dropActive` — an active handle dropped without finalizing:
  `remove_task` stamps `completed_at` but leaves the state InProgress
  (see the comment in `cleanup_old_tasks`), and the owned permit is
  released;
* `cleanup` — `cleanup_old_tasks` removes an entry whose `completed_at`
  is stamped, once old enough (time is abstracted away). -/
inductive RegStep (cap : Nat) : RegState → RegState → Prop
  | add (s : RegState) :
      RegStep cap s ⟨s.tasks ++ [⟨.Queued, false, .hQueued⟩], s.permits⟩
  | start (l₁ : List TaskRec) (t : TaskRec) (l₂ : List TaskRec) (p : Nat)
      (ht : t.handle = .hQueued) (hcap : p < cap) :
      RegStep cap ⟨l₁ ++ t :: l₂, p⟩
        ⟨l₁ ++ { t with state := .InProgress, handle := .hActive } :: l₂, p + 1⟩
  | complete (l₁ : List TaskRec) (t : TaskRec) (l₂ : List TaskRec) (p : Nat)
      (ht : t.handle = .hActive) :
      RegStep cap ⟨l₁ ++ t :: l₂, p⟩
        ⟨l₁ ++ (⟨.Completed, true, .hDead⟩ : TaskRec) :: l₂, p - 1⟩
  | markFailed (l₁ : List TaskRec) (t : TaskRec) (l₂ : List TaskRec) (p : Nat)
      (msg : String) (ht : t.handle = .hActive) :
      RegStep cap ⟨l₁ ++ t :: l₂, p⟩
        ⟨l₁ ++ (⟨.Failed msg, true, .hDead⟩ : TaskRec) :: l₂, p - 1⟩
  | dropQueued (l₁ : List TaskRec) (t : TaskRec) (l₂ : List TaskRec) (p : Nat)
      (ht : t.handle = .hQueued) :
      RegStep cap ⟨l₁ ++ t :: l₂, p⟩
        ⟨l₁ ++ { t with finalized := true, handle := .hDead } :: l₂, p⟩
  | dropActive (l₁ : List TaskRec) (t : TaskRec) (l₂ : List TaskRec) (p : Nat)
      (ht : t.handle = .hActive) :
      RegStep cap ⟨l₁ ++ t :: l₂, p⟩
        ⟨l₁ ++ { t with finalized := true, handle := .hDead } :: l₂, p - 1⟩
  | cleanup (l₁ : List TaskRec) (t : TaskRec) (l₂ : List TaskRec) (p : Nat)
      (ht : t.finalized = true) :
      RegStep cap ⟨l₁ ++ t :: l₂, p⟩ ⟨l₁ ++ l₂, p⟩

/-- The registry starts empty with no permits out. -/
def regInit : RegState := ⟨[], 0⟩

/-- States reachable by interleavings of registry operations. -/
def RegReachable (cap : Nat) (s : RegState) : Prop :=
  Relation.ReflTransGen (RegStep cap) regInit s

/-- Number of tasks whose registry state reads InProgress. -/
def countInProgress (l : List TaskRec) : Nat :=
  l.countP (fun t => t.state == TaskState.InProgress)

/-- Number of tasks whose state reads InProgress and whose `completed_at`
is not stamped (i.e. not drop-finalized). -/
def countLiveInProgress (l : List TaskRec) : Nat :=
  l.countP (fun t => t.state == TaskState.InProgress && !t.finalized)

/-- Number of live active handles (each owns one semaphore permit). -/
def countActiveHandles (l : List TaskRec) : Nat :=
  l.countP (fun t => t.handle == HandleState.hActive)

/-- The inductive invariant of the registry transition system: at most
`cap` permits are out, the permits out are exactly the live active
handles, and each handle state pins down the task fields (a live queued
handle sits on a Queued non-finalized task, a live active handle on an
InProgress non-finalized task, a dead handle on a finalized task). -/
def regInv (cap : Nat) (s : RegState) : Prop :=
  s.permits ≤ cap ∧
  s.permits = countActiveHandles s.tasks ∧
  ∀ t ∈ s.tasks,
    (t.handle = HandleState.hQueued →
      t.state = TaskState.Queued ∧ t.finalized = false) ∧
    (t.handle = HandleState.hActive →
      t.state = TaskState.InProgress ∧ t.finalized = false) ∧
    (t.handle = HandleState.hDead → t.finalized = true)

/-- A task freshly added by `add_task`. -/
def trQueued : TaskRec := ⟨TaskState.Queued, false, HandleState.hQueued⟩

/-- A started task whose active handle is live. -/
def trActive : TaskRec := ⟨TaskState.InProgress, false, HandleState.hActive⟩

/-- A task whose active handle was dropped without `complete` or
`mark_failed`: `remove_task` stamped `completed_at`, the state still reads
InProgress, the permit is back in the semaphore. -/
def trDroppedActive : TaskRec := ⟨TaskState.InProgress, true, HandleState.hDead⟩

/-- The registry state reached (with capacity 1) by: add, start, drop the
active handle, add again, start again. -/
def c2BadState : RegState := ⟨[trDroppedActive, trActive], 1⟩

/-! ## Concrete inputs used by counterexamples and witnesses -/

/-- Restart metrics of a kind that has never restarted. -/
def restartMetrics0 : RestartMetrics :=
  { count := 0
    last_started := none
    last_completed := none
    last_outcome := none
    last_error := none
    in_progress := false }

/-- Metric data for a kind with `f` consecutive failures and no prior
success or restart. -/
def metricDataCF (f : Nat) : TaskMetricData :=
  { success := 0
    failure := f
    consecutive_failures := f
    last_success := none
    last_failure := some 0
    restart := { restartMetrics0 with in_progress := true, last_started := some 0 } }

/-- The scenario-S6 manager state: one DownloadVideo failure, three
consecutive RefreshIndex failures, a restart in flight that was triggered
by RefreshIndex. -/
def s6ManagerState : ManagerMetrics :=
  { download := metricDataCF 1
    refresh := metricDataCF 3
    gluetun_restart_in_progress := true }

/-- A supervisor snapshot in which only DownloadVideo satisfies the
restart condition. -/
def snapshotDownloadHot : AllMetrics :=
  { tasks_download :=
      some { success_count := 0
             failure_count := 3
             consecutive_failures := 3
             last_success_seconds_ago := none
             last_failure_seconds_ago := some 5
             restart_count := 0
             last_restart_seconds_ago := none
             last_restart_outcome := none
             last_restart_error := none
             restart_in_progress := false }
    tasks_refresh :=
      some { success_count := 2
             failure_count := 0
             consecutive_failures := 0
             last_success_seconds_ago := some 10
             last_failure_seconds_ago := none
             restart_count := 0
             last_restart_seconds_ago := none
             last_restart_outcome := none
             last_restart_error := none
             restart_in_progress := false }
    gluetun_enabled := true }

/-- A media row whose `metadata` column is NULL. -/
def mediaNoMetadata : MediaModel :=
  { id := 1
    url := "https://example.net/v/1".toList
    source_id := 1
    metadata := none
    media_path := none }

/-- A media row whose `metadata` column holds JSON that does not
deserialize as `MediaMetadata`. -/
def mediaBadMetadata : MediaModel :=
  { mediaNoMetadata with metadata := some JVal.unparseable }

/-- A source row with parseable metadata. -/
def sourceWithMetadata : SourceModel :=
  { id := 1
    url := "https://example.net/channel".toList
    fetch_last_days := 7
    last_refreshed_at := none
    refresh_frequency := 12
    sponsorblock := ""
    metadata := some (JVal.parsesTo
      { uploader := "someone", items := 3, source_provider := "Example" })
    last_scheduled_refresh := none }

/-- A freshly added source: no metadata yet, never refreshed, never
scheduled. -/
def sourceFresh : SourceModel :=
  { sourceWithMetadata with id := 7, metadata := none }

/-- A stream item far older than any recency window used here. -/
def oldVideoItem : MediaMetadata :=
  { title := "old video"
    description := none
    duration := 10
    extractor_key := "Example"
    original_url := "https://example.net/v/old".toList
    timestamp := 0 }

/-- A stream item inside the recency window used here. -/
def recentVideoItem : MediaMetadata :=
  { title := "recent video"
    description := none
    duration := 10
    extractor_key := "Example"
    original_url := "https://example.net/v/new".toList
    timestamp := 1000 }

/-- The refresh loop's state before the first item: no rows for this
source yet, database will assign ids from 0. -/
def emptyLoopState : RefreshLoopState :=
  { db := [], next_id := 0, saw_newer := false, enqueued := [] }

/-! # Theorems -/

/-! ## Helper lemmas -/

theorem streamLoop_records_shift {R : Type} (parse : String → Option R)
    (lines : List String) :
    ∀ n, (streamLoop parse lines n).1 = (streamLoop parse lines 0).1 ∧
      (streamLoop parse lines n).2 = n + (streamLoop parse lines 0).1.length := by
  induction lines with
  | nil => intro n; simp [streamLoop]
  | cons l ls ih =>
    intro n
    by_cases hl : l = ""
    · simpa [streamLoop, hl] using ih n
    · cases hp : parse l with
      | none => simpa [streamLoop, hl, hp] using ih n
      | some r =>
        have h1 := ih (n + 1)
        have h0 := ih 1
        simp only [streamLoop, hl, if_false, hp]
        constructor
        · simp [h1.1, h0.1]
        · simp [h1.2, h0.2, h0.1]
          omega

theorem should_trigger_restart_iff (tm : TaskMetrics) :
    should_trigger_restart tm = true ↔
      tm.restart_in_progress = false ∧
      MAX_CONSECUTIVE_FAILURES_BEFORE_RESTART ≤ tm.consecutive_failures ∧
      restart_gate_allows tm = true := by
  unfold should_trigger_restart
  by_cases h1 : tm.restart_in_progress <;>
    by_cases h2 : tm.consecutive_failures < MAX_CONSECUTIVE_FAILURES_BEFORE_RESTART <;>
      by_cases h3 : restart_gate_allows tm <;>
        simp_all

theorem restart_gate_allows_iff (tm : TaskMetrics) :
    restart_gate_allows tm = true ↔
      (match tm.last_success_seconds_ago, tm.last_restart_seconds_ago with
        | none, none => True
        | some s, none => 1800 ≤ s
        | none, some r => 1800 ≤ r
        | some s, some r => 1800 ≤ min s r) := by
  unfold restart_gate_allows MIN_SUCCESS_AGE_BEFORE_RESTART_SECS
  cases hs : tm.last_success_seconds_ago <;>
    cases hr : tm.last_restart_seconds_ago <;> simp

/-! ## C9 — extractor concurrency configuration -/

/-- C9: for every value of `LOCALTUBE_YTDLP_CONCURRENCY`, the concurrency
gate's capacity is the parsed integer clamped to 1..8, and the default 4
applies when the variable is unset or does not parse as an integer. -/
theorem c9_concurrency_clamped :
    ytdtp_concurrency none = 4 ∧
    (∀ v : List Char, parseU64 v = none → ytdtp_concurrency (some v) = 4) ∧
    (∀ (v : List Char) (n : Nat), parseU64 v = some n →
      ytdtp_concurrency (some v) = max 1 (min n 8)) := by
  refine ⟨rfl, ?_, ?_⟩
  · intro v hv
    simp [ytdtp_concurrency, hv]
  · intro v n hv
    simp [ytdtp_concurrency, hv]

theorem c9_concurrency_clamped_witness :
    parseU64 ("12".toList) = some 12 ∧
    parseU64 ("oops".toList) = none ∧
    ytdtp_concurrency (some ("12".toList)) = max 1 (min 12 8) ∧
    ytdtp_concurrency (some ("oops".toList)) = 4 :=
  ⟨by decide, by decide,
    c9_concurrency_clamped.2.2 ("12".toList) 12 (by decide),
    c9_concurrency_clamped.2.1 ("oops".toList) (by decide)⟩

/-! ## C7 — extractor stream terminal error -/

/-- C7: for every run of the extractor stream, a non-zero exit, or a zero
exit with zero emitted items, delivers to the consumer exactly one
terminal error after the emitted records; a zero exit with at least one
emitted item delivers the parsed records followed by channel closure and
no error. -/
theorem c7_stream_terminal_error {R : Type} (parse : String → Option R)
    (lines : List String) :
    (stream_media_list_received parse lines false =
      (streamLoop parse lines 0).1.map Except.ok ++ [Except.error ()]) ∧
    ((streamLoop parse lines 0).1 = [] →
      stream_media_list_received parse lines true = [Except.error ()]) ∧
    ((streamLoop parse lines 0).1 ≠ [] →
      stream_media_list_received parse lines true =
        (streamLoop parse lines 0).1.map Except.ok ∧
      Except.error () ∉ stream_media_list_received parse lines true) := by
  have hcount := (streamLoop_records_shift parse lines 0).2
  refine ⟨?_, ?_, ?_⟩
  · simp [stream_media_list_received, stream_should_fail]
  · intro hnil
    simp [stream_media_list_received, stream_should_fail, hcount, hnil]
  · intro hne
    have hlen : (streamLoop parse lines 0).1.length ≠ 0 := by
      intro h
      exact hne (List.length_eq_zero.mp h)
    constructor
    · simp only [stream_media_list_received, stream_should_fail, hcount]
      rw [if_neg (by simp [hlen])]
      simp
    · simp only [stream_media_list_received, stream_should_fail, hcount]
      rw [if_neg (by simp [hlen])]
      simp

theorem c7_stream_terminal_error_witness :
    ((streamLoop (fun s => if s = "x" then some 1 else none)
        ["x", "", "junk"] 0).1 ≠ ([] : List Nat)) ∧
    stream_media_list_received (fun s => if s = "x" then some 1 else none)
        ["x", "", "junk"] true = [Except.ok 1] ∧
    stream_media_list_received (fun s => if s = "x" then some 1 else none)
        ["", "junk"] true = [Except.error ()] := by
  have h3 := (c7_stream_terminal_error
    (fun s => if s = "x" then some 1 else none) ["x", "", "junk"]).2.2
    (by decide)
  have h2 := (c7_stream_terminal_error
    (fun s => if s = "x" then some 1 else none) ["", "junk"]).2.1
    (by decide)
  exact ⟨by decide, by simpa using h3.1, h2⟩

/-! ## C5 — VPN supervisor restart gate -/

/-- C5: for every metrics snapshot, a restart is requested for kind `k`
only if `k`'s `restart_in_progress` is false, `k`'s
`consecutive_failures` is at least 3, and either both
`last_success_seconds_ago` and `last_restart_seconds_ago` are undefined
or the minimum of the defined values is at least 1800 seconds;
DownloadVideo is considered before RefreshIndex (a RefreshIndex trigger
means DownloadVideo did not satisfy the condition), and at most one
restart is requested per snapshot. -/
theorem c5_restart_gate (m : AllMetrics) (begin_ok : Bool) (k : TaskType)
    (hreq : handle_metrics_request m begin_ok = some k) :
    (∃ tm, m.tasksGet k = some tm ∧
      tm.restart_in_progress = false ∧
      MAX_CONSECUTIVE_FAILURES_BEFORE_RESTART ≤ tm.consecutive_failures ∧
      (match tm.last_success_seconds_ago, tm.last_restart_seconds_ago with
        | none, none => True
        | some s, none => 1800 ≤ s
        | none, some r => 1800 ≤ r
        | some s, some r => 1800 ≤ min s r)) ∧
    (k = TaskType.RefreshIndex →
      ∃ d, m.tasksGet TaskType.DownloadVideo = some d ∧
        should_trigger_restart d = false) ∧
    (∀ k', handle_metrics_request m begin_ok = some k' → k' = k) := by
  have hsel : select_restart_trigger m = some k := by
    unfold handle_metrics_request at hreq
    by_cases he : m.gluetun_enabled
    · cases hsel : select_restart_trigger m with
      | none => simp [he, hsel] at hreq
      | some t =>
        cases begin_ok
        · simp [he, hsel] at hreq
        · simp [he, hsel] at hreq
          simp [hreq]
    · simp [he] at hreq
  refine ⟨?_, ?_, ?_⟩
  · rw [select_restart_trigger] at hsel
    cases hd : m.tasksGet TaskType.DownloadVideo with
    | none => rw [hd] at hsel; simp at hsel
    | some download =>
      rw [hd] at hsel
      by_cases hstd : should_trigger_restart download
      · simp only [hstd, if_true] at hsel
        have hk := (Option.some_inj.mp hsel).symm
        subst hk
        refine ⟨download, hd, ?_⟩
        have := (should_trigger_restart_iff download).mp hstd
        exact ⟨this.1, this.2.1, (restart_gate_allows_iff download).mp this.2.2⟩
      · cases hr : m.tasksGet TaskType.RefreshIndex with
        | none => rw [hr] at hsel; simp [hstd] at hsel
        | some refresh =>
          rw [hr] at hsel
          by_cases hstr : should_trigger_restart refresh
          · simp only [hstd, if_false, Bool.not_eq_true] at hsel
            simp only [hstr, if_true] at hsel
            have hk := (Option.some_inj.mp hsel).symm
            subst hk
            refine ⟨refresh, hr, ?_⟩
            have := (should_trigger_restart_iff refresh).mp hstr
            exact ⟨this.1, this.2.1, (restart_gate_allows_iff refresh).mp this.2.2⟩
          · simp [hstd, hstr] at hsel
  · intro hk
    subst hk
    rw [select_restart_trigger] at hsel
    cases hd : m.tasksGet TaskType.DownloadVideo with
    | none => rw [hd] at hsel; simp at hsel
    | some download =>
      rw [hd] at hsel
      by_cases hstd : should_trigger_restart download
      · simp [hstd] at hsel
      · exact ⟨download, rfl, by simpa using hstd⟩
  · intro k' hk'
    rw [hreq] at hk'
    exact (Option.some_inj.mp hk').symm

theorem c5_restart_gate_witness :
    handle_metrics_request snapshotDownloadHot true = some TaskType.DownloadVideo ∧
    (∃ tm, snapshotDownloadHot.tasksGet TaskType.DownloadVideo = some tm ∧
      tm.restart_in_progress = false ∧
      MAX_CONSECUTIVE_FAILURES_BEFORE_RESTART ≤ tm.consecutive_failures ∧
      (match tm.last_success_seconds_ago, tm.last_restart_seconds_ago with
        | none, none => True
        | some s, none => 1800 ≤ s
        | none, some r => 1800 ≤ r
        | some s, some r => 1800 ≤ min s r)) :=
  ⟨by decide,
    (c5_restart_gate snapshotDownloadHot true TaskType.DownloadVideo (by decide)).1⟩

/-! ## C1 — finish_vpn_restart and the trigger kind -/

/-- C1 (refuted; the claim matches the repository's own tests and the
supervisor call sites, the code does not): `finish_gluetun_restart` takes
no trigger kind and always mutates the DownloadVideo metrics entry.
Starting from scenario S6 (DownloadVideo `consecutive_failures = 1`,
RefreshIndex `consecutive_failures = 3`, restart in flight triggered by
RefreshIndex), a successful finish resets DownloadVideo's streak to 0,
bumps DownloadVideo's restart count, and leaves RefreshIndex's streak at
3 — the claim requires RefreshIndex to be reset to 0 and DownloadVideo to
stay at 1. -/
theorem c1_finish_restart_ignores_trigger_kind :
    (finish_gluetun_restart 60 (Except.ok "restarted") s6ManagerState).download.consecutive_failures = 0 ∧
    (finish_gluetun_restart 60 (Except.ok "restarted") s6ManagerState).refresh.consecutive_failures = 3 ∧
    (finish_gluetun_restart 60 (Except.ok "restarted") s6ManagerState).download.restart.count = 1 ∧
    (finish_gluetun_restart 60 (Except.ok "restarted") s6ManagerState).refresh.restart.count = 0 ∧
    (finish_gluetun_restart 60 (Except.ok "restarted") s6ManagerState).gluetun_restart_in_progress = false ∧
    (finish_gluetun_restart 60 (Except.ok "restarted") s6ManagerState).refresh =
      s6ManagerState.refresh := by
  refine ⟨rfl, rfl, rfl, rfl, rfl, rfl⟩

/-! ## C6 — download worker no-op on missing metadata -/

/-- C6 counterexample: a media row whose `metadata` column is NULL does
not make `perform` return success — `get_metadata`'s documented `unwrap`
panic propagates instead. -/
theorem c6_missing_metadata_panics :
    mediaNoMetadata.metadata = none ∧
    fetch_media_perform (some mediaNoMetadata) (some sourceWithMetadata)
        (Except.ok ("f.mkv".toList)) = Except.error PanicE.panic ∧
    ∀ run, fetch_media_perform (some mediaNoMetadata) (some sourceWithMetadata)
        (Except.ok ("f.mkv".toList)) ≠ Except.ok run := by
  refine ⟨rfl, rfl, ?_⟩
  intro run h
  simp [fetch_media_perform, mediaNoMetadata, medias_get_metadata] at h

/-- C6 (amended): for every media row whose `metadata` field is present
but does not deserialize as `MediaMetadata`, `perform` returns success as
a no-op — no task registered, no extractor download, no media update, no
retry.  (A row whose `metadata` column is absent instead panics in
`get_metadata`, as that function documents.) -/
theorem c6_unparseable_metadata_noop (media : MediaModel)
    (source? : Option SourceModel) (dl : Except String (List Char))
    (v : JVal MediaMetadata) (hv : media.metadata = some v)
    (hp : parseJ v = none) :
    fetch_media_perform (some media) source? dl = Except.ok fetchMediaNoop := by
  unfold fetch_media_perform
  by_cases hmp : media.media_path.isSome
  · simp [hmp]
  · simp [hmp, medias_get_metadata, hv, hp]

theorem c6_unparseable_metadata_noop_witness :
    mediaBadMetadata.metadata = some JVal.unparseable ∧
    parseJ (JVal.unparseable : JVal MediaMetadata) = none ∧
    fetch_media_perform (some mediaBadMetadata) (some sourceWithMetadata)
        (Except.ok ("f.mkv".toList)) = Except.ok fetchMediaNoop :=
  ⟨rfl, rfl,
    c6_unparseable_metadata_noop mediaBadMetadata (some sourceWithMetadata)
      (Except.ok ("f.mkv".toList)) JVal.unparseable rfl rfl⟩

/-! ## C8 — refresh scheduler sweep -/

/-- C8 counterexample: for a freshly added source (metadata column NULL,
never refreshed, never scheduled) the claim requires a refresh to be
scheduled, but evaluating the scheduling condition calls
`source.get_metadata()`, whose `unwrap` panics on the NULL column, so the
sweep aborts without scheduling. -/
theorem c8_missing_metadata_panics :
    sourceFresh.metadata = none ∧
    sourceFresh.last_refreshed_at = none ∧
    sourceFresh.last_scheduled_refresh = none ∧
    refresh_index_decide 1000000 false sourceFresh = Except.error PanicE.panic ∧
    ∀ b, refresh_index_decide 1000000 false sourceFresh ≠ Except.ok b := by
  refine ⟨rfl, rfl, rfl, rfl, ?_⟩
  intro b h
  simp [refresh_index_decide, sourceFresh, sourceWithMetadata,
    sources_get_metadata] at h

/-- C8 (amended): on each sweep, for every source whose `metadata` column
is present: jitter equals `(last_refreshed_at.unix() tmod 1800) − 900`
(or 0 if never refreshed); `is_time_passed ts` holds iff `ts` is absent
or `now − ts` exceeds `refresh_frequency × 3600 + jitter`; and a refresh
is scheduled — stamping `last_scheduled_refresh = now` on the source
before enqueuing its job — iff `(metadata fails to parse OR
is_time_passed last_refreshed_at) AND is_time_passed
last_scheduled_refresh`, or the force flag is set.  (A source whose
metadata column is absent panics instead; see the counterexample.) -/
theorem c8_sweep_decision (now : Int) (force : Bool) (source : SourceModel)
    (v : JVal SourceMetadata) (hv : source.metadata = some v) :
    (let jitter : Int :=
      match source.last_refreshed_at with
      | none => 0
      | some u => Int.tmod u 1800 - 900
    let time_passed : Option Int → Prop := fun ts =>
      match ts with
      | none => True
      | some t => source.refresh_frequency * 3600 + jitter < now - t
    refresh_index_decide now force source = Except.ok true ↔
      ((parseJ v = none ∨ time_passed source.last_refreshed_at) ∧
        time_passed source.last_scheduled_refresh) ∨ force = true) ∧
    (refresh_index_decide now force source = Except.ok true →
      refresh_index_step now force source =
        Except.ok ({ source with last_scheduled_refresh := some now },
          some source.id)) := by
  constructor
  · simp only [refresh_index_decide, hv, sources_get_metadata, Except.ok.injEq]
    cases hlr : source.last_refreshed_at <;>
      cases hls : source.last_scheduled_refresh <;>
        cases hpv : parseJ v <;> cases force <;>
          simp [hpv, hlr, hls]
  · intro h
    unfold refresh_index_step
    rw [h]
    rfl

theorem c8_sweep_decision_witness :
    refresh_index_decide 1000000 false sourceWithMetadata = Except.ok true ∧
    refresh_index_step 1000000 false sourceWithMetadata =
      Except.ok ({ sourceWithMetadata with last_scheduled_refresh := some 1000000 },
        some sourceWithMetadata.id) := by
  have h := c8_sweep_decision 1000000 false sourceWithMetadata
    (JVal.parsesTo { uploader := "someone", items := 3, source_provider := "Example" })
    rfl
  have h1 : refresh_index_decide 1000000 false sourceWithMetadata = Except.ok true := by
    rfl
  exact ⟨h1, h.2 h1⟩

/-! ## C2 — permit accounting -/

theorem regInv_init (cap : Nat) : regInv cap regInit := by
  refine ⟨Nat.zero_le _, rfl, ?_⟩
  intro t ht
  simp [regInit] at ht

theorem regInv_step {cap : Nat} {s s' : RegState} (h : RegStep cap s s')
    (hinv : regInv cap s) : regInv cap s' := by
  obtain ⟨hcap, hperm, hrec⟩ := hinv
  cases h with
  | add s =>
    refine ⟨hcap, ?_, ?_⟩
    · simpa [countActiveHandles, List.countP_append, List.countP_cons, trQueued]
        using hperm
    · intro t ht
      rcases List.mem_append.mp ht with h1 | h1
      · exact hrec t h1
      · rcases List.mem_singleton.mp h1 with rfl
        refine ⟨fun _ => ⟨rfl, rfl⟩, fun hh => by simp at hh, fun hh => by simp at hh⟩
  | start l₁ t l₂ p ht hcapLt =>
    have hmem : t ∈ l₁ ++ t :: l₂ := List.mem_append_right _ (List.mem_cons_self t l₂)
    have htFin := (hrec t hmem).1 ht
    dsimp only at hcap hperm
    simp [countActiveHandles, List.countP_append, List.countP_cons, ht] at hperm
    refine ⟨?_, ?_, ?_⟩
    · show p + 1 ≤ cap
      omega
    · show p + 1 = countActiveHandles
        (l₁ ++ { t with state := TaskState.InProgress, handle := HandleState.hActive } :: l₂)
      simp [countActiveHandles, List.countP_append, List.countP_cons]
      omega
    · intro x hx
      rcases List.mem_append.mp hx with h1 | h1
      · exact hrec x (List.mem_append_left _ h1)
      · rcases List.mem_cons.mp h1 with rfl | h1
        · refine ⟨fun hh => by simp at hh, fun _ => ⟨rfl, htFin.2⟩,
            fun hh => by simp at hh⟩
        · exact hrec x (List.mem_append_right _ (List.mem_cons_of_mem _ h1))
  | complete l₁ t l₂ p ht =>
    have hmem : t ∈ l₁ ++ t :: l₂ := List.mem_append_right _ (List.mem_cons_self t l₂)
    dsimp only at hcap hperm
    simp [countActiveHandles, List.countP_append, List.countP_cons, ht] at hperm
    refine ⟨?_, ?_, ?_⟩
    · show p - 1 ≤ cap
      omega
    · show p - 1 = countActiveHandles
        (l₁ ++ (⟨TaskState.Completed, true, HandleState.hDead⟩ : TaskRec) :: l₂)
      simp [countActiveHandles, List.countP_append, List.countP_cons]
      omega
    · intro x hx
      rcases List.mem_append.mp hx with h1 | h1
      · exact hrec x (List.mem_append_left _ h1)
      · rcases List.mem_cons.mp h1 with rfl | h1
        · exact ⟨fun hh => by simp at hh, fun hh => by simp at hh, fun _ => rfl⟩
        · exact hrec x (List.mem_append_right _ (List.mem_cons_of_mem _ h1))
  | markFailed l₁ t l₂ p msg ht =>
    have hmem : t ∈ l₁ ++ t :: l₂ := List.mem_append_right _ (List.mem_cons_self t l₂)
    dsimp only at hcap hperm
    simp [countActiveHandles, List.countP_append, List.countP_cons, ht] at hperm
    refine ⟨?_, ?_, ?_⟩
    · show p - 1 ≤ cap
      omega
    · show p - 1 = countActiveHandles
        (l₁ ++ (⟨TaskState.Failed msg, true, HandleState.hDead⟩ : TaskRec) :: l₂)
      simp [countActiveHandles, List.countP_append, List.countP_cons]
      omega
    · intro x hx
      rcases List.mem_append.mp hx with h1 | h1
      · exact hrec x (List.mem_append_left _ h1)
      · rcases List.mem_cons.mp h1 with rfl | h1
        · exact ⟨fun hh => by simp at hh, fun hh => by simp at hh, fun _ => rfl⟩
        · exact hrec x (List.mem_append_right _ (List.mem_cons_of_mem _ h1))
  | dropQueued l₁ t l₂ p ht =>
    dsimp only at hcap hperm
    simp [countActiveHandles, List.countP_append, List.countP_cons, ht] at hperm
    refine ⟨hcap, ?_, ?_⟩
    · show p = countActiveHandles
        (l₁ ++ ({ t with finalized := true, handle := HandleState.hDead } : TaskRec) :: l₂)
      simp [countActiveHandles, List.countP_append, List.countP_cons]
      omega
    · intro x hx
      rcases List.mem_append.mp hx with h1 | h1
      · exact hrec x (List.mem_append_left _ h1)
      · rcases List.mem_cons.mp h1 with rfl | h1
        · exact ⟨fun hh => by simp at hh, fun hh => by simp at hh, fun _ => rfl⟩
        · exact hrec x (List.mem_append_right _ (List.mem_cons_of_mem _ h1))
  | dropActive l₁ t l₂ p ht =>
    dsimp only at hcap hperm
    simp [countActiveHandles, List.countP_append, List.countP_cons, ht] at hperm
    refine ⟨?_, ?_, ?_⟩
    · show p - 1 ≤ cap
      omega
    · show p - 1 = countActiveHandles
        (l₁ ++ ({ t with finalized := true, handle := HandleState.hDead } : TaskRec) :: l₂)
      simp [countActiveHandles, List.countP_append, List.countP_cons]
      omega
    · intro x hx
      rcases List.mem_append.mp hx with h1 | h1
      · exact hrec x (List.mem_append_left _ h1)
      · rcases List.mem_cons.mp h1 with rfl | h1
        · exact ⟨fun hh => by simp at hh, fun hh => by simp at hh, fun _ => rfl⟩
        · exact hrec x (List.mem_append_right _ (List.mem_cons_of_mem _ h1))
  | cleanup l₁ t l₂ p ht =>
    have htF : (t.handle == HandleState.hActive) = false := by
      rcases hh : t.handle with _ | _ | _
      · rfl
      · have := ((hrec t (List.mem_append_right _ (List.mem_cons_self t l₂))).2.1 hh).2
        rw [ht] at this
        cases this
      · rfl
    dsimp only at hcap hperm
    simp [countActiveHandles, List.countP_append, List.countP_cons, htF] at hperm
    refine ⟨hcap, ?_, ?_⟩
    · show p = countActiveHandles (l₁ ++ l₂)
      simp [countActiveHandles, List.countP_append]
      omega
    · intro x hx
      rcases List.mem_append.mp hx with h1 | h1
      · exact hrec x (List.mem_append_left _ h1)
      · exact hrec x (List.mem_append_right _ (List.mem_cons_of_mem _ h1))

theorem regReachable_inv {cap : Nat} {s : RegState} (h : RegReachable cap s) :
    regInv cap s := by
  unfold RegReachable at h
  induction h with
  | refl => exact regInv_init cap
  | tail _ hstep ih => exact regInv_step hstep ih

/-- C2 counterexample: with capacity 1, the interleaving add → start →
drop-the-active-handle → add → start reaches a registry state holding two
tasks whose state reads InProgress while only one permit is checked out —
so the InProgress count neither equals the checked-out permits nor stays
within the capacity.  (The dropped task keeps state InProgress with only
`completed_at` stamped, as the comment in `cleanup_old_tasks` notes, until
the cleanup sweep removes it.) -/
theorem c2_inprogress_exceeds_permits :
    RegReachable 1 c2BadState ∧
    countInProgress c2BadState.tasks = 2 ∧
    c2BadState.permits = 1 ∧
    ¬(countInProgress c2BadState.tasks = c2BadState.permits ∧
      countInProgress c2BadState.tasks ≤ 1) := by
  refine ⟨?_, by decide, rfl, by decide⟩
  have h1 : RegStep 1 regInit ⟨[trQueued], 0⟩ := RegStep.add regInit
  have h2 : RegStep 1 ⟨[trQueued], 0⟩ ⟨[trActive], 1⟩ :=
    RegStep.start [] trQueued [] 0 rfl (by omega)
  have h3 : RegStep 1 ⟨[trActive], 1⟩ ⟨[trDroppedActive], 0⟩ :=
    RegStep.dropActive [] trActive [] 1 rfl
  have h4 : RegStep 1 ⟨[trDroppedActive], 0⟩ ⟨[trDroppedActive, trQueued], 0⟩ :=
    RegStep.add ⟨[trDroppedActive], 0⟩
  have h5 : RegStep 1 ⟨[trDroppedActive, trQueued], 0⟩ c2BadState :=
    RegStep.start [trDroppedActive] trQueued [] 0 rfl (by omega)
  exact Relation.ReflTransGen.tail (Relation.ReflTransGen.tail
    (Relation.ReflTransGen.tail (Relation.ReflTransGen.tail
      (Relation.ReflTransGen.single h1) h2) h3) h4) h5

/-- C2 (amended): in every state reachable by any interleaving of the
registry operations, the number of tasks whose state is InProgress *and
that are not drop-finalized* (`completed_at` unset) equals the number of
permits currently checked out and is at most the semaphore capacity; these
live InProgress tasks are exactly the live active handles, each of which
owns one permit.  A drop-finalized task whose state still reads InProgress
holds no permit; it merely lingers until `cleanup_old_tasks` removes it,
which is what falsifies the unqualified claim. -/
theorem c2_permit_accounting (cap : Nat) (s : RegState)
    (h : RegReachable cap s) :
    countLiveInProgress s.tasks = s.permits ∧
    countLiveInProgress s.tasks ≤ cap ∧
    countLiveInProgress s.tasks = countActiveHandles s.tasks := by
  obtain ⟨hcap, hperm, hrec⟩ := regReachable_inv h
  have heq : countLiveInProgress s.tasks = countActiveHandles s.tasks := by
    unfold countLiveInProgress countActiveHandles
    apply List.countP_congr
    intro t ht
    obtain ⟨hq, ha, hd⟩ := hrec t ht
    cases hh : t.handle with
    | hQueued =>
      obtain ⟨hs, _⟩ := hq hh
      simp [hs, hh]
    | hActive =>
      obtain ⟨hs, hf⟩ := ha hh
      simp [hs, hf, hh]
    | hDead =>
      have hf := hd hh
      simp [hf, hh]
  exact ⟨heq.trans hperm.symm, by omega, heq⟩

theorem c2_permit_accounting_witness :
    RegReachable 2 ⟨[trDroppedActive, trActive], 1⟩ ∧
    countLiveInProgress [trDroppedActive, trActive] = 1 ∧
    countLiveInProgress [trDroppedActive, trActive] ≤ 2 := by
  have h1 : RegStep 2 regInit ⟨[trQueued], 0⟩ := RegStep.add regInit
  have h2 : RegStep 2 ⟨[trQueued], 0⟩ ⟨[trActive], 1⟩ :=
    RegStep.start [] trQueued [] 0 rfl (by omega)
  have h3 : RegStep 2 ⟨[trActive], 1⟩ ⟨[trDroppedActive], 0⟩ :=
    RegStep.dropActive [] trActive [] 1 rfl
  have h4 : RegStep 2 ⟨[trDroppedActive], 0⟩ ⟨[trDroppedActive, trQueued], 0⟩ :=
    RegStep.add ⟨[trDroppedActive], 0⟩
  have h5 : RegStep 2 ⟨[trDroppedActive, trQueued], 0⟩ ⟨[trDroppedActive, trActive], 1⟩ :=
    RegStep.start [trDroppedActive] trQueued [] 0 rfl (by omega)
  have hreach : RegReachable 2 ⟨[trDroppedActive, trActive], 1⟩ :=
    Relation.ReflTransGen.tail (Relation.ReflTransGen.tail
      (Relation.ReflTransGen.tail (Relation.ReflTransGen.tail
        (Relation.ReflTransGen.single h1) h2) h3) h4) h5
  have := c2_permit_accounting 2 ⟨[trDroppedActive, trActive], 1⟩ hreach
  exact ⟨hreach, this.1, this.2.1⟩

/-! ## C4 — refresh worker and the recency window -/

theorem refresh_loop_fresh (file_exists : List Char → Bool)
    (order_known : Bool) (fetch_before : Int) (source_id : Nat) :
    ∀ (items : List MediaMetadata) (st : RefreshLoopState),
      (∀ row ∈ st.db, ∀ it ∈ items,
        listContainsSub it.original_url row.url = false) →
      items.Pairwise
        (fun x y => listContainsSub y.original_url x.original_url = false) →
      (refresh_stream_loop file_exists false order_known fetch_before
          source_id items st).enqueued =
        st.enqueued ++ List.range' st.next_id items.length ∧
      (refresh_stream_loop file_exists false order_known fetch_before
          source_id items st).next_id = st.next_id + items.length := by
  intro items
  induction items with
  | nil =>
    intro st _ _
    simp [refresh_stream_loop]
  | cons x rest ih =>
    intro st hdb hpw
    have hfind : (st.db.find? (fun row =>
        row.source_id == source_id && listContainsSub x.original_url row.url))
        = none := by
      apply List.find?_eq_none.mpr
      intro row hrow
      have hsub := hdb row hrow x (List.mem_cons_self x rest)
      simp [hsub]
    have goal_eq : refresh_stream_loop file_exists false order_known
        fetch_before source_id (x :: rest) st =
        refresh_stream_loop file_exists false order_known fetch_before
          source_id rest
          (refresh_item_step file_exists source_id x
            { st with
                saw_newer := st.saw_newer || decide (fetch_before ≤ x.timestamp) }) :=
      rfl
    have step_eq : refresh_item_step file_exists source_id x
        { st with
            saw_newer := st.saw_newer || decide (fetch_before ≤ x.timestamp) } =
        { db := st.db ++
            [{ id := st.next_id, url := x.original_url, source_id := source_id,
               metadata := some (JVal.parsesTo x), media_path := none }]
          next_id := st.next_id + 1
          saw_newer := st.saw_newer || decide (fetch_before ≤ x.timestamp)
          enqueued := st.enqueued ++ [st.next_id] } := by
      rw [refresh_item_step]
      have hdbeq : ({ st with
          saw_newer := st.saw_newer || decide (fetch_before ≤ x.timestamp) } :
            RefreshLoopState).db = st.db := rfl
      rw [hdbeq, hfind]
    have hdbREC : ∀ row ∈ st.db ++
        [({ id := st.next_id, url := x.original_url, source_id := source_id,
            metadata := some (JVal.parsesTo x), media_path := none } : MediaModel)],
        ∀ it ∈ rest, listContainsSub it.original_url row.url = false := by
      intro row hrow it hit
      rcases List.mem_append.mp hrow with h1 | h1
      · exact hdb row h1 it (List.mem_cons_of_mem _ hit)
      · rcases List.mem_singleton.mp h1 with rfl
        exact (List.pairwise_cons.mp hpw).1 it hit
    have hpw' := (List.pairwise_cons.mp hpw).2
    have hrec := ih
      ({ db := st.db ++
          [{ id := st.next_id, url := x.original_url, source_id := source_id,
             metadata := some (JVal.parsesTo x), media_path := none }]
         next_id := st.next_id + 1
         saw_newer := st.saw_newer || decide (fetch_before ≤ x.timestamp)
         enqueued := st.enqueued ++ [st.next_id] } : RefreshLoopState)
      hdbREC hpw'
    rw [goal_eq, step_eq]
    refine ⟨?_, ?_⟩
    · rw [hrec.1]
      dsimp only
      rw [List.length_cons, List.range'_succ, List.append_assoc]
      rfl
    · rw [hrec.2]
      dsimp only
      rw [List.length_cons]
      omega

/-- C4 counterexample: with the cached list kind List and
`list_count = 10 ≤ 25` early-stop is disabled, and for a stream holding a
single emitted item whose timestamp 0 lies before
`fetch_before_timestamp = 100`, the refresh loop inserts a catalog row for
the old item and enqueues a DownloadVideo job for it — the claim says an
item older than the window is never enqueued. -/
theorem c4_old_item_enqueued :
    should_stop_early (some SourceListKind.List) (some 10) = false ∧
    oldVideoItem.timestamp < 100 ∧
    (refresh_stream_loop (fun _ => true)
        (should_stop_early (some SourceListKind.List) (some 10)) true 100 1
        [oldVideoItem] emptyLoopState).enqueued = [0] ∧
    (refresh_stream_loop (fun _ => true)
        (should_stop_early (some SourceListKind.List) (some 10)) true 100 1
        [oldVideoItem] emptyLoopState).db =
      [{ id := 0, url := oldVideoItem.original_url, source_id := 1,
         metadata := some (JVal.parsesTo oldVideoItem), media_path := none }] :=
  ⟨rfl, by decide, rfl, rfl⟩

/-- C4 (amended): for a refresh whose cached list kind is List with
`list_count ≤ 25`, early-stop is disabled and the whole stream is
scanned; the worker enqueues a DownloadVideo job for every emitted item
that needs a download, irrespective of its timestamp — in particular,
from an empty catalog (with pairwise non-overlapping URLs) every streamed
item, inside or outside the recency window, is inserted and enqueued.
The recency window governs only early-stop and the end-of-refresh
cleanup, not download enqueueing. -/
theorem c4_small_list_enqueues_all (c : Nat) (hc : c ≤ 25)
    (file_exists : List Char → Bool) (order_known : Bool)
    (fetch_before : Int) (source_id : Nat) (items : List MediaMetadata)
    (hpw : items.Pairwise
      (fun x y => listContainsSub y.original_url x.original_url = false)) :
    should_stop_early (some SourceListKind.List) (some c) = false ∧
    (refresh_stream_loop file_exists
        (should_stop_early (some SourceListKind.List) (some c)) order_known
        fetch_before source_id items emptyLoopState).enqueued =
      List.range' 0 items.length := by
  have hstop : should_stop_early (some SourceListKind.List) (some c) = false := by
    simp [should_stop_early, SMALL_LIST_THRESHOLD, hc]
  refine ⟨hstop, ?_⟩
  rw [hstop]
  have := (refresh_loop_fresh file_exists order_known fetch_before source_id
    items emptyLoopState (by intro row hrow; simp [emptyLoopState] at hrow) hpw).1
  simpa [emptyLoopState] using this

theorem c4_small_list_enqueues_all_witness :
    (List.Pairwise
      (fun x y => listContainsSub y.original_url x.original_url = false)
      [recentVideoItem, oldVideoItem]) ∧
    recentVideoItem.timestamp ≥ 100 ∧
    oldVideoItem.timestamp < 100 ∧
    (refresh_stream_loop (fun _ => true)
        (should_stop_early (some SourceListKind.List) (some 10)) true 100 1
        [recentVideoItem, oldVideoItem] emptyLoopState).enqueued =
      List.range' 0 2 :=
  ⟨by decide, by decide, by decide,
    (c4_small_list_enqueues_all 10 (by decide) (fun _ => true) true 100 1
      [recentVideoItem, oldVideoItem] (by decide)).2⟩

/-! ## Helper lemmas: decimal numerals and header strings -/

theorem decDigitChar_spec (d : Nat) (h : d < 10) :
    parseDigit (decDigitChar d) = some d ∧
    rustIsWhitespace (decDigitChar d) = false ∧
    decDigitChar d ≠ '+' ∧ decDigitChar d ≠ '-' ∧
    decDigitChar d ≠ ',' ∧ decDigitChar d ≠ 'b' := by
  interval_cases d <;> decide

theorem natDecCharsGo_congr (n : Nat) :
    ∀ f₁ f₂ : Nat, n < f₁ → n < f₂ → natDecCharsGo f₁ n = natDecCharsGo f₂ n := by
  induction n using Nat.strong_induction_on with
  | _ n ih =>
    intro f₁ f₂ h₁ h₂
    cases f₁ with
    | zero => omega
    | succ g₁ =>
      cases f₂ with
      | zero => omega
      | succ g₂ =>
        rw [natDecCharsGo, natDecCharsGo]
        by_cases h : n < 10
        · rw [if_pos h, if_pos h]
        · rw [if_neg h, if_neg h]
          have hlt : n / 10 < n := Nat.div_lt_self (by omega) (by omega)
          rw [ih (n / 10) hlt g₁ g₂ (by omega) (by omega)]

theorem natDecChars_eq (n : Nat) :
    natDecChars n =
      if n < 10 then [decDigitChar n]
      else natDecChars (n / 10) ++ [decDigitChar (n % 10)] := by
  unfold natDecChars
  rw [natDecCharsGo]
  by_cases h : n < 10
  · rw [if_pos h, if_pos h]
  · rw [if_neg h, if_neg h]
    have hlt : n / 10 < n := Nat.div_lt_self (by omega) (by omega)
    rw [natDecCharsGo_congr (n / 10) n (n / 10 + 1) (by omega) (by omega)]

theorem natDecChars_mem (n : Nat) :
    ∀ c ∈ natDecChars n, ∃ d, d < 10 ∧ c = decDigitChar d := by
  induction n using Nat.strong_induction_on with
  | _ n ih =>
    rw [natDecChars_eq]
    by_cases h : n < 10
    · rw [if_pos h]
      intro c hc
      rcases List.mem_singleton.mp hc with rfl
      exact ⟨n, h, rfl⟩
    · rw [if_neg h]
      intro c hc
      rcases List.mem_append.mp hc with h1 | h1
      · exact ih (n / 10) (Nat.div_lt_self (by omega) (by omega)) c h1
      · rcases List.mem_singleton.mp h1 with rfl
        exact ⟨n % 10, Nat.mod_lt _ (by omega), rfl⟩

theorem natDecChars_head (n : Nat) :
    ∃ d t, d < 10 ∧ natDecChars n = decDigitChar d :: t := by
  induction n using Nat.strong_induction_on with
  | _ n ih =>
    rw [natDecChars_eq]
    by_cases h : n < 10
    · exact ⟨n, [], h, by simp [h]⟩
    · obtain ⟨d, t, hd, ht⟩ := ih (n / 10) (Nat.div_lt_self (by omega) (by omega))
      exact ⟨d, t ++ [decDigitChar (n % 10)], hd, by simp [h, ht]⟩

theorem digitsToNat_append (xs : List Char) :
    ∀ (ys : List Char) (acc : Nat),
      digitsToNat (xs ++ ys) acc =
        match digitsToNat xs acc with
        | none => none
        | some v => digitsToNat ys v := by
  induction xs with
  | nil => intro ys acc; rfl
  | cons c cs ih =>
    intro ys acc
    simp only [List.cons_append, digitsToNat]
    cases hp : parseDigit c with
    | none => simp [hp]
    | some d => simp [hp, ih]

theorem digitsToNat_natDecChars (n : Nat) :
    ∀ acc, digitsToNat (natDecChars n) acc =
      some (acc * 10 ^ (natDecChars n).length + n) := by
  induction n using Nat.strong_induction_on with
  | _ n ih =>
    intro acc
    by_cases h : n < 10
    · rw [natDecChars_eq]
      rw [if_pos h]
      simp [digitsToNat, (decDigitChar_spec n h).1]
    · have hrec := ih (n / 10) (Nat.div_lt_self (by omega) (by omega))
      rw [natDecChars_eq]
      rw [if_neg h]
      rw [digitsToNat_append, hrec acc]
      simp only [digitsToNat,
        (decDigitChar_spec (n % 10) (Nat.mod_lt _ (by omega))).1]
      have hsplit : 10 * (n / 10) + n % 10 = n := Nat.div_add_mod n 10
      simp only [List.length_append, List.length_singleton, Option.some_inj]
      calc (acc * 10 ^ (natDecChars (n / 10)).length + n / 10) * 10 + n % 10
          = acc * (10 ^ (natDecChars (n / 10)).length * 10) +
              (10 * (n / 10) + n % 10) := by ring
        _ = acc * 10 ^ ((natDecChars (n / 10)).length + 1) + n := by
              rw [hsplit, ← pow_succ]

theorem parseU64_natDecChars (n : Nat) (h : n < 2 ^ 64) :
    parseU64 (natDecChars n) = some n := by
  obtain ⟨d, t, hd, hshape⟩ := natDecChars_head n
  have hdig := digitsToNat_natDecChars n 0
  simp only [Nat.zero_mul, Nat.zero_add] at hdig
  rw [hshape] at hdig ⊢
  show (if decDigitChar d = '+' then parseU64Digits t
    else parseU64Digits (decDigitChar d :: t)) = some n
  rw [if_neg (decDigitChar_spec d hd).2.2.1]
  show (match digitsToNat (decDigitChar d :: t) 0 with
    | none => none
    | some v => if v < 2 ^ 64 then some v else none) = some n
  rw [hdig]
  show (if n < 2 ^ 64 then some n else none) = some n
  rw [if_pos h]

theorem takeWhile_eq_self_of {p : Char → Bool} :
    ∀ xs : List Char, (∀ c ∈ xs, p c = true) → xs.takeWhile p = xs := by
  intro xs h
  induction xs with
  | nil => rfl
  | cons c cs ih =>
    rw [List.takeWhile_cons, h c (List.mem_cons_self c cs)]
    simp only [if_true]
    rw [ih (fun x hx => h x (List.mem_cons_of_mem _ hx))]

theorem dropWhile_eq_self_of {p : Char → Bool} :
    ∀ xs : List Char, (∀ c ∈ xs, p c = false) → xs.dropWhile p = xs := by
  intro xs h
  cases xs with
  | nil => rfl
  | cons c cs =>
    rw [List.dropWhile_cons, h c (List.mem_cons_self c cs)]
    simp

theorem rustTrim_eq_self (xs : List Char)
    (h : ∀ c ∈ xs, rustIsWhitespace c = false) : rustTrim xs = xs := by
  unfold rustTrim
  rw [dropWhile_eq_self_of xs h,
    dropWhile_eq_self_of xs.reverse (fun c hc => h c (List.mem_reverse.mp hc)),
    List.reverse_reverse]

theorem contains_eq_false_of (a : Char) (xs : List Char)
    (h : ∀ c ∈ xs, c ≠ a) : xs.contains a = false := by
  have hm : a ∉ xs := fun hmem => h a hmem rfl
  simp [List.contains, hm]

theorem isPrefixOf_append_self_list (p r : List Char) :
    p.isPrefixOf (p ++ r) = true := by
  induction p with
  | nil => simp
  | cons a as ih => simp [List.isPrefixOf_cons₂, ih]

theorem isPrefixOf_bytes_ne (c : Char) (cs : List Char) (h : c ≠ 'b') :
    ("bytes=".toList).isPrefixOf (c :: cs) = false := by
  have hb : "bytes=".toList = 'b' :: "ytes=".toList := rfl
  rw [hb, List.isPrefixOf_cons₂]
  have hbc : ('b' == c) = false := by
    simp only [beq_eq_false_iff_ne, ne_eq]
    exact fun hh => h hh.symm
  simp [hbc]

theorem splitFirstDash_no_dash :
    ∀ xs : List Char, (∀ c ∈ xs, c ≠ '-') → splitFirstDash xs = (xs, none) := by
  intro xs h
  induction xs with
  | nil => rfl
  | cons c cs ih =>
    rw [splitFirstDash]
    rw [if_neg (h c (List.mem_cons_self c cs))]
    rw [ih (fun x hx => h x (List.mem_cons_of_mem _ hx))]

theorem splitFirstDash_found :
    ∀ (ds : List Char), (∀ c ∈ ds, c ≠ '-') → ∀ rest : List Char,
      splitFirstDash (ds ++ '-' :: rest) = (ds, some rest) := by
  intro ds h
  induction ds with
  | nil =>
    intro rest
    show splitFirstDash ('-' :: rest) = ([], some rest)
    rw [splitFirstDash, if_pos rfl]
  | cons c cs ih =>
    intro rest
    show splitFirstDash (c :: (cs ++ '-' :: rest)) = (c :: cs, some rest)
    rw [splitFirstDash, if_neg (h c (List.mem_cons_self c cs)),
      ih (fun x hx => h x (List.mem_cons_of_mem _ hx)) rest]

theorem stripAllBytesEq_bytes (rest : List Char) :
    stripAllBytesEq ("bytes=".toList ++ rest) = stripAllBytesEq rest := rfl

theorem stripAllBytesEq_ne_b (c : Char) (cs : List Char) (h : c ≠ 'b') :
    stripAllBytesEq (c :: cs) = c :: cs := by
  rw [stripAllBytesEq.eq_def]
  split
  · rename_i rest heq
    rw [List.cons_eq_cons] at heq
    exact absurd heq.1 h
  · rfl

theorem natDecChars_props (n : Nat) :
    ∀ c ∈ natDecChars n, rustIsWhitespace c = false ∧ c ≠ '+' ∧ c ≠ '-' ∧
      c ≠ ',' ∧ c ≠ 'b' := by
  intro c hc
  obtain ⟨d, hd, rfl⟩ := natDecChars_mem n c hc
  have hspec := decDigitChar_spec d hd
  exact ⟨hspec.2.1, hspec.2.2.1, hspec.2.2.2.1, hspec.2.2.2.2.1,
    hspec.2.2.2.2.2⟩

theorem mkRangeHeaderAB_eq (a b : Nat) :
    mkRangeHeaderAB a b =
      "bytes=".toList ++ (natDecChars a ++ '-' :: natDecChars b) := by
  unfold mkRangeHeaderAB
  simp [List.append_assoc]

theorem mkRangeHeaderFrom_eq (a : Nat) :
    mkRangeHeaderFrom a = "bytes=".toList ++ (natDecChars a ++ '-' :: []) := by
  unfold mkRangeHeaderFrom
  simp [List.append_assoc]

theorem rangeTail_no_ws (a : Nat) (rest : List Char)
    (hrest : ∀ c ∈ rest, rustIsWhitespace c = false) :
    ∀ c ∈ natDecChars a ++ '-' :: rest, rustIsWhitespace c = false := by
  intro c hc
  rcases List.mem_append.mp hc with h1 | h1
  · exact (natDecChars_props a c h1).1
  · rcases List.mem_cons.mp h1 with rfl | h1
    · decide
    · exact hrest c h1

theorem header_no_ws (a : Nat) (rest : List Char)
    (hrest : ∀ c ∈ rest, rustIsWhitespace c = false) :
    ∀ c ∈ "bytes=".toList ++ (natDecChars a ++ '-' :: rest),
      rustIsWhitespace c = false := by
  intro c hc
  rcases List.mem_append.mp hc with h1 | h1
  · fin_cases h1 <;> decide
  · exact rangeTail_no_ws a rest hrest c h1

theorem stripAllBytesEq_header (a : Nat) (rest : List Char) :
    stripAllBytesEq ("bytes=".toList ++ (natDecChars a ++ '-' :: rest)) =
      natDecChars a ++ '-' :: rest := by
  rw [stripAllBytesEq_bytes]
  obtain ⟨d, t, hd, hhead⟩ := natDecChars_head a
  rw [hhead, List.cons_append]
  exact stripAllBytesEq_ne_b _ _ (decDigitChar_spec d hd).2.2.2.2.2

theorem rangeTail_no_comma (a : Nat) (rest : List Char)
    (hrest : ∀ c ∈ rest, c ≠ ',') :
    ∀ c ∈ natDecChars a ++ '-' :: rest, c ≠ ',' := by
  intro c hc
  rcases List.mem_append.mp hc with h1 | h1
  · exact (natDecChars_props a c h1).2.2.2.1
  · rcases List.mem_cons.mp h1 with rfl | h1
    · decide
    · exact hrest c h1

theorem splitFirstDash_header (a : Nat) (rest : List Char) :
    splitFirstDash (natDecChars a ++ '-' :: rest) = (natDecChars a, some rest) :=
  splitFirstDash_found (natDecChars a)
    (fun c hc => (natDecChars_props a c hc).2.2.1) rest

theorem takeWhile_ne_comma (xs : List Char) (h : ∀ c ∈ xs, c ≠ ',') :
    (xs.takeWhile (fun c => c ≠ ',')) = xs := by
  apply takeWhile_eq_self_of
  intro c hc
  simp [h c hc]

theorem natDecChars_ne_nil (n : Nat) : natDecChars n ≠ [] := by
  obtain ⟨d, t, _, hh⟩ := natDecChars_head n
  rw [hh]
  simp

theorem parse_range_header_ab (S a b : Nat) (hS : 0 < S) (haS : a < S)
    (ha64 : a < 2 ^ 64) (hb64 : b < 2 ^ 64) (hab : a ≤ b) :
    parse_range_header (mkRangeHeaderAB a b) S = some (a, min b (S - 1)) := by
  have hSne : ¬ (S = 0) := by omega
  rw [mkRangeHeaderAB_eq]
  have htrim := rustTrim_eq_self _
    (header_no_ws a (natDecChars b) (fun c hc => (natDecChars_props b c hc).1))
  have htake := takeWhile_ne_comma (natDecChars a ++ '-' :: natDecChars b)
    (rangeTail_no_comma a (natDecChars b)
      (fun c hc => (natDecChars_props b c hc).2.2.2.1))
  have htrim2 := rustTrim_eq_self (natDecChars a ++ '-' :: natDecChars b)
    (rangeTail_no_ws a (natDecChars b) (fun c hc => (natDecChars_props b c hc).1))
  unfold parse_range_header
  rw [if_neg hSne, htrim]
  dsimp only
  rw [isPrefixOf_append_self_list]
  simp only [Bool.not_true, Bool.false_eq_true, if_false]
  rw [stripAllBytesEq_header, htake, htrim2, splitFirstDash_header]
  dsimp only
  rw [if_neg (natDecChars_ne_nil a)]
  rw [parseU64_natDecChars a ha64]
  dsimp only
  rw [if_neg (show ¬ S ≤ a by omega)]
  simp only [Option.getD_some]
  rw [if_neg (natDecChars_ne_nil b)]
  rw [parseU64_natDecChars b hb64]
  dsimp only
  rw [if_neg (show ¬ b < a by omega)]

theorem parse_range_header_from_ge (S a : Nat) (hge : S ≤ a)
    (ha64 : a < 2 ^ 64) : parse_range_header (mkRangeHeaderFrom a) S = none := by
  by_cases hS0 : S = 0
  · unfold parse_range_header
    rw [if_pos hS0]
  · rw [mkRangeHeaderFrom_eq]
    have htrim := rustTrim_eq_self _
      (header_no_ws a [] (by intro c hc; simp at hc))
    have htake := takeWhile_ne_comma (natDecChars a ++ '-' :: [])
      (rangeTail_no_comma a [] (by intro c hc; simp at hc))
    have htrim2 := rustTrim_eq_self (natDecChars a ++ '-' :: [])
      (rangeTail_no_ws a [] (by intro c hc; simp at hc))
    unfold parse_range_header
    rw [if_neg hS0, htrim]
    dsimp only
    rw [isPrefixOf_append_self_list]
    simp only [Bool.not_true, Bool.false_eq_true, if_false]
    rw [stripAllBytesEq_header, htake, htrim2, splitFirstDash_header]
    dsimp only
    rw [if_neg (natDecChars_ne_nil a)]
    rw [parseU64_natDecChars a ha64]
    dsimp only
    rw [if_pos hge]

theorem is_multi_range_header_range_tail (a : Nat) (rest : List Char)
    (hrest₁ : ∀ c ∈ rest, rustIsWhitespace c = false)
    (hrest₂ : ∀ c ∈ rest, c ≠ ',') :
    is_multi_range_header ("bytes=".toList ++ (natDecChars a ++ '-' :: rest))
      = false := by
  have htrim := rustTrim_eq_self _ (header_no_ws a rest hrest₁)
  unfold is_multi_range_header
  rw [htrim]
  dsimp only
  rw [stripAllBytesEq_header]
  rw [contains_eq_false_of ',' _ (rangeTail_no_comma a rest hrest₂)]
  simp

theorem isBytes_range_tail (a : Nat) (rest : List Char)
    (hrest₁ : ∀ c ∈ rest, rustIsWhitespace c = false) :
    ("bytes=".toList).isPrefixOf
      (rustTrim ("bytes=".toList ++ (natDecChars a ++ '-' :: rest))) = true := by
  rw [rustTrim_eq_self _ (header_no_ws a rest hrest₁)]
  exact isPrefixOf_append_self_list _ _

theorem media_stream_response_206 (h : List Char) (file : List Nat)
    (s e : Nat)
    (hbytes : ("bytes=".toList).isPrefixOf (rustTrim h) = true)
    (hmulti : is_multi_range_header h = false)
    (hparse : parse_range_header h file.length = some (s, e)) :
    media_stream_response (some h) file =
      { status := 206
        body := (file.drop s).take (e - s + 1)
        content_range := some ("bytes ".toList ++ natDecChars s ++ ['-'] ++
          natDecChars e ++ ['/'] ++ natDecChars file.length)
        content_length := some (e - s + 1)
        accept_ranges := true } := by
  have hlen : ¬ (file.length = 0) := by
    intro h0
    unfold parse_range_header at hparse
    rw [if_pos h0] at hparse
    cases hparse
  unfold media_stream_response
  dsimp only
  rw [hbytes, hmulti, hparse]
  simp [hlen]

theorem media_stream_response_416 (h : List Char) (file : List Nat)
    (hbytes : ("bytes=".toList).isPrefixOf (rustTrim h) = true)
    (hmulti : is_multi_range_header h = false)
    (hparse : parse_range_header h file.length = none) :
    media_stream_response (some h) file =
      range_not_satisfiable_response file.length := by
  unfold media_stream_response
  dsimp only
  rw [hbytes, hmulti, hparse]
  simp

theorem media_stream_response_200 (h : List Char) (file : List Nat)
    (hcase : ("bytes=".toList).isPrefixOf (rustTrim h) = false ∨
      is_multi_range_header h = true) :
    media_stream_response (some h) file =
      { status := 200, body := file, content_range := none,
        content_length := some file.length, accept_ranges := true } := by
  unfold media_stream_response
  dsimp only
  rcases hcase with hb | hm
  · rw [hb]
    rcases Nat.eq_zero_or_pos file.length with h0 | h0
    · have hf := List.length_eq_zero.mp h0
      subst hf
      simp
    · have h2 : file.length - 1 - 0 + 1 = file.length := by omega
      have h3 : ¬ (file.length = 0) := by omega
      simp [h2, h3]
      omega
  · rw [hm]
    cases hbv : ("bytes=".toList).isPrefixOf (rustTrim h) <;>
    · rcases Nat.eq_zero_or_pos file.length with h0 | h0
      · have hf := List.length_eq_zero.mp h0
        subst hf
        simp
      · have h2 : file.length - 1 - 0 + 1 = file.length := by omega
        have h3 : ¬ (file.length = 0) := by omega
        simp [h2, h3]
        omega

/-! ## C3 — byte-range semantics of the media streamer -/

/-- C3: for every stored file of size `S > 0` (sizes are `u64`): a request
`Range: bytes=a-b` with `0 ≤ a ≤ b < S` yields status 206 with body equal
to bytes `a..b`, `Content-Range: bytes a-b/S` and `Content-Length:
b-a+1`; a request `bytes=a-` with `a ≥ S` yields 416 with `Content-Range:
bytes */S`; a request whose range unit is not `bytes`, or that lists
multiple ranges, yields 200 with the full body. -/
theorem c3_range_semantics :
    (∀ (file : List Nat) (a b : Nat), 0 < file.length → a ≤ b →
      b < file.length → file.length < 2 ^ 64 →
      media_stream_response (some (mkRangeHeaderAB a b)) file =
        { status := 206
          body := (file.drop a).take (b - a + 1)
          content_range := some ("bytes ".toList ++ natDecChars a ++ ['-'] ++
            natDecChars b ++ ['/'] ++ natDecChars file.length)
          content_length := some (b - a + 1)
          accept_ranges := true }) ∧
    (∀ (file : List Nat) (a : Nat), 0 < file.length → file.length ≤ a →
      a < 2 ^ 64 →
      media_stream_response (some (mkRangeHeaderFrom a)) file =
        range_not_satisfiable_response file.length) ∧
    (∀ (file : List Nat) (h : List Char),
      ("bytes=".toList).isPrefixOf (rustTrim h) = false ∨
        is_multi_range_header h = true →
      media_stream_response (some h) file =
        { status := 200, body := file, content_range := none,
          content_length := some file.length, accept_ranges := true }) := by
  refine ⟨?_, ?_, ?_⟩
  · intro file a b hS hab hbS h64
    have hparse := parse_range_header_ab file.length a b hS (by omega)
      (by omega) (by omega) hab
    have hmin : min b (file.length - 1) = b := by omega
    rw [hmin] at hparse
    rw [mkRangeHeaderAB_eq]
    rw [mkRangeHeaderAB_eq] at hparse
    exact media_stream_response_206 _ file a b
      (isBytes_range_tail a (natDecChars b)
        (fun c hc => (natDecChars_props b c hc).1))
      (is_multi_range_header_range_tail a (natDecChars b)
        (fun c hc => (natDecChars_props b c hc).1)
        (fun c hc => (natDecChars_props b c hc).2.2.2.1))
      hparse
  · intro file a hS hge h64
    have hparse := parse_range_header_from_ge file.length a hge (by omega)
    rw [mkRangeHeaderFrom_eq]
    rw [mkRangeHeaderFrom_eq] at hparse
    exact media_stream_response_416 _ file
      (isBytes_range_tail a [] (by intro c hc; simp at hc))
      (is_multi_range_header_range_tail a [] (by intro c hc; simp at hc)
        (by intro c hc; simp at hc))
      hparse
  · intro file h hcase
    exact media_stream_response_200 h file hcase

theorem c3_range_semantics_witness :
    media_stream_response (some (mkRangeHeaderAB 2 5)) (List.range 10) =
      { status := 206, body := [2, 3, 4, 5],
        content_range := some ("bytes 2-5/10".toList),
        content_length := some 4, accept_ranges := true } ∧
    media_stream_response (some (mkRangeHeaderFrom 12)) (List.range 10) =
      range_not_satisfiable_response 10 ∧
    media_stream_response (some ("items=0-5".toList)) (List.range 3) =
      { status := 200, body := [0, 1, 2], content_range := none,
        content_length := some 3, accept_ranges := true } := by
  refine ⟨?_, ?_, ?_⟩
  · exact (c3_range_semantics.1 (List.range 10) 2 5 (by decide) (by decide)
      (by decide) (by decide)).trans (by decide)
  · exact (c3_range_semantics.2.1 (List.range 10) 12 (by decide) (by decide)
      (by decide)).trans (by decide)
  · exact (c3_range_semantics.2.2 (List.range 3) ("items=0-5".toList)
      (Or.inl (by decide))).trans (by decide)

/-! ## C10 — unsatisfiable single byte ranges yield 416, not 200 -/

/-- C10: a request whose Range header starts (after trimming) with the
`bytes=` unit and names a single range that does not parse to a
satisfiable range — non-numeric bounds, the zero-length suffix
`bytes=-0`, an end smaller than the start, or a start beyond the file —
is answered 416 with `Content-Range: bytes */size`, never a 200
full-body fallback; conversely a 200 can only arise from a non-`bytes`
unit or a multi-range header. -/
theorem c10_unsatisfiable_range :
    (∀ (file : List Nat) (h : List Char),
      ("bytes=".toList).isPrefixOf (rustTrim h) = true →
      is_multi_range_header h = false →
      parse_range_header h file.length = none →
      media_stream_response (some h) file =
        range_not_satisfiable_response file.length) ∧
    (∀ (file : List Nat) (h : List Char),
      (media_stream_response (some h) file).status = 200 →
      ("bytes=".toList).isPrefixOf (rustTrim h) = false ∨
        is_multi_range_header h = true) := by
  constructor
  · intro file h hbytes hmulti hparse
    exact media_stream_response_416 h file hbytes hmulti hparse
  · intro file h hstatus
    by_cases hb : ("bytes=".toList).isPrefixOf (rustTrim h) = true
    · by_cases hm : is_multi_range_header h = true
      · exact Or.inr hm
      · exfalso
        cases hp : parse_range_header h file.length with
        | none =>
          rw [media_stream_response_416 h file hb
            (Bool.not_eq_true _ ▸ hm) hp] at hstatus
          simp [range_not_satisfiable_response] at hstatus
        | some p =>
          rw [media_stream_response_206 h file p.1 p.2 hb
            (Bool.not_eq_true _ ▸ hm) (by simpa using hp)] at hstatus
          simp at hstatus
    · exact Or.inl (Bool.not_eq_true _ ▸ hb)

theorem c10_unsatisfiable_range_witness :
    ("bytes=".toList).isPrefixOf (rustTrim ("bytes=abc-def".toList)) = true ∧
    parse_range_header ("bytes=abc-def".toList) 10 = none ∧
    parse_range_header ("bytes=-0".toList) 10 = none ∧
    parse_range_header ("bytes=5-2".toList) 10 = none ∧
    media_stream_response (some ("bytes=abc-def".toList)) (List.range 10) =
      range_not_satisfiable_response 10 ∧
    media_stream_response (some ("bytes=-0".toList)) (List.range 10) =
      range_not_satisfiable_response 10 ∧
    media_stream_response (some ("bytes=5-2".toList)) (List.range 10) =
      range_not_satisfiable_response 10 ∧
    (("bytes=".toList).isPrefixOf
        (rustTrim ("bytes=1-2,7-9".toList)) = false ∨
      is_multi_range_header ("bytes=1-2,7-9".toList) = true) := by
  refine ⟨by decide, by decide, by decide, by decide, ?_, ?_, ?_, ?_⟩
  · exact (c10_unsatisfiable_range.1 (List.range 10) ("bytes=abc-def".toList)
      (by decide) (by decide) (by decide)).trans (by decide)
  · exact (c10_unsatisfiable_range.1 (List.range 10) ("bytes=-0".toList)
      (by decide) (by decide) (by decide)).trans (by decide)
  · exact (c10_unsatisfiable_range.1 (List.range 10) ("bytes=5-2".toList)
      (by decide) (by decide) (by decide)).trans (by decide)
  · exact c10_unsatisfiable_range.2 (List.range 10) ("bytes=1-2,7-9".toList)
      (by decide)

end LocalTube
